import Mathlib

/-!
Shallow embedding of the pull-request feedback pipeline in `src/github.ts`:
the content resolver (`fetchFullFileContent`), the per-file aggregation loop
(`aggregateASTReport`), the conversation-context builder inside
`handlePullRequestCommentEvent`, and the two event handlers.  External
collaborators (the platform API, the structural parser, the feedback
generator, the comment poster) are passed in as oracle functions returning
`Except`, mirroring promise rejection with an error message.
-/

deriving instance DecidableEq for Except

/-- Model of JavaScript `s.substring(0, n)`: the first `n` characters of `s`. -/
def jsSubstring (s : String) (n : Nat) : String :=
  String.mk (s.data.take n)

/-- Base64 alphabet character for a 6-bit value (`A-Z`, `a-z`, `0-9`, `+`, `/`). -/
def b64Char (v : Nat) : Char :=
  if v < 26 then Char.ofNat (65 + v)
  else if v < 52 then Char.ofNat (97 + (v - 26))
  else if v < 62 then Char.ofNat (48 + (v - 52))
  else if v = 62 then '+'
  else '/'

/-- Inverse of the base64 alphabet: `none` for characters outside it
(padding `=` and whitespace are skipped by the decoder, as `Buffer.from`
does). -/
def b64Val (c : Char) : Option Nat :=
  let n := c.toNat
  if 65 ≤ n ∧ n ≤ 90 then some (n - 65)
  else if 97 ≤ n ∧ n ≤ 122 then some (n - 97 + 26)
  else if 48 ≤ n ∧ n ≤ 57 then some (n - 48 + 52)
  else if c = '+' then some 62
  else if c = '/' then some 63
  else none

/-- Standard base64 encoding of a byte sequence (values `< 256`), with `=`
padding.  This models the platform-side encoding of file bytes. -/
def base64EncodeBytes : List Nat → List Char
  | b0 :: b1 :: b2 :: rest =>
      b64Char (b0 / 4) :: b64Char ((b0 % 4) * 16 + b1 / 16) ::
      b64Char ((b1 % 16) * 4 + b2 / 64) :: b64Char (b2 % 64) ::
      base64EncodeBytes rest
  | [b0, b1] => [b64Char (b0 / 4), b64Char ((b0 % 4) * 16 + b1 / 16), b64Char ((b1 % 16) * 4), '=']
  | [b0] => [b64Char (b0 / 4), b64Char ((b0 % 4) * 16), '=', '=']
  | [] => []

/-- Regroup a sequence of 6-bit values into bytes, four values to three
bytes, with a lenient tail as in `Buffer.from(str, "base64")`. -/
def base64DecodeVals : List Nat → List Nat
  | v0 :: v1 :: v2 :: v3 :: rest =>
      (v0 * 4 + v1 / 16) :: ((v1 % 16) * 16 + v2 / 4) :: ((v2 % 4) * 64 + v3) ::
      base64DecodeVals rest
  | [v0, v1, v2] => [v0 * 4 + v1 / 16, (v1 % 16) * 16 + v2 / 4]
  | [v0, v1] => [v0 * 4 + v1 / 16]
  | _ => []

/-- Base64 decoding of a character sequence to bytes, skipping characters
outside the alphabet (this is how `Buffer.from(str, "base64")` treats `=`
and junk). -/
def base64DecodeChars (cs : List Char) : List Nat :=
  base64DecodeVals (cs.filterMap b64Val)

/-- UTF-8 encoding of one Unicode scalar value as 1 to 4 bytes. -/
def utf8EncodeChar (c : Char) : List Nat :=
  let n := c.toNat
  if n < 128 then [n]
  else if n < 2048 then [192 + n / 64, 128 + n % 64]
  else if n < 65536 then [224 + n / 4096, 128 + (n / 64) % 64, 128 + n % 64]
  else [240 + n / 262144, 128 + (n / 4096) % 64, 128 + (n / 64) % 64, 128 + n % 64]

/-- UTF-8 encoding of a character sequence. -/
def utf8Encode : List Char → List Nat
  | [] => []
  | c :: cs => utf8EncodeChar c ++ utf8Encode cs

/-- The Unicode replacement character, emitted on truncated input. -/
def replacementChar : Char := Char.ofNat 65533

/-- Total UTF-8 decoder modelling `Buffer.toString("utf8")` on well-formed
input: a lead byte determines how many continuation bytes are consumed; a
truncated sequence yields the replacement character. -/
def utf8DecodeTotal : List Nat → List Char
  | [] => []
  | b :: bs =>
    if b < 128 then Char.ofNat b :: utf8DecodeTotal bs
    else if b < 192 then replacementChar :: utf8DecodeTotal bs
    else if b < 224 then
      if bs.length < 1 then [replacementChar]
      else Char.ofNat ((b - 192) * 64 + (bs.headD 0 - 128)) :: utf8DecodeTotal (bs.drop 1)
    else if b < 240 then
      if bs.length < 2 then [replacementChar]
      else Char.ofNat ((b - 224) * 4096 + (bs.headD 0 - 128) * 64 + ((bs.drop 1).headD 0 - 128))
        :: utf8DecodeTotal (bs.drop 2)
    else
      if bs.length < 3 then [replacementChar]
      else Char.ofNat ((b - 240) * 262144 + (bs.headD 0 - 128) * 4096
          + ((bs.drop 1).headD 0 - 128) * 64 + ((bs.drop 2).headD 0 - 128))
        :: utf8DecodeTotal (bs.drop 3)
termination_by l => l.length
decreasing_by all_goals simp [List.length_drop] <;> omega

/-- Model of `Buffer.from(content, "base64").toString("utf8")` at line 93 of
`src/github.ts`. -/
def bufferBase64ToUtf8 (content : String) : String :=
  String.mk (utf8DecodeTotal (base64DecodeChars content.data))

/-- Platform-side encoding of a UTF-8 text into the base64 `content` field
of an encoded-content response (spec side of the round-trip law). -/
def utf8Base64Encode (s : String) : String :=
  String.mk (base64EncodeBytes (utf8Encode s.data))

/-- The content-bearing object of a non-directory `getContent` response:
a `type` tag and an optional base64 `content` field. -/
structure ContentFileObject where
  type : String
  content : Option String
deriving DecidableEq

/-- Shape of `response.data` from `octokit.rest.repos.getContent` as
discriminated by `fetchFullFileContent`: a plain string (raw media), an
array (directory listing), or a content object. -/
inductive ContentResponse where
  | text (s : String)
  | dir (entries : List String)
  | obj (o : ContentFileObject)
deriving DecidableEq

/-- The two errors thrown by `fetchFullFileContent`: the spec names them
`NotAFile` (directory-shaped response) and `UnreadableContent`. -/
inductive FetchError where
  | notAFile (path : String)
  | unreadableContent (path : String)
deriving DecidableEq

/-- Embedding of `fetchFullFileContent` (src/github.ts lines 62-98): return
plain text directly; a directory listing throws `NotAFile`; a file object
with a truthy `content` field is base64-decoded to UTF-8; anything else
throws `UnreadableContent`.  JavaScript truthiness makes the empty string
fail the `response.data.content` test, hence the explicit empty check. -/
def fetchFullFileContent (path : String) (data : ContentResponse) : Except FetchError String :=
  match data with
  | .text s => .ok s
  | .dir _ => .error (.notAFile path)
  | .obj o =>
    if o.type = "file" then
      match o.content with
      | some c => if c = "" then .error (.unreadableContent path) else .ok (bufferBase64ToUtf8 c)
      | none => .error (.unreadableContent path)
    else .error (.unreadableContent path)

/-- Spec-side predicate: the response is already decoded plain text. -/
def isPlainText : ContentResponse → Prop
  | .text _ => True
  | _ => False

/-- Spec-side predicate: the response is directory-shaped (an array). -/
def isDirectoryShaped : ContentResponse → Prop
  | .dir _ => True
  | _ => False

/-- Spec-side predicate, literal reading of the claim: a file-typed object
whose encoded `content` field is present (regardless of its value). -/
def carriesEncodedBody : ContentResponse → Prop
  | .obj o => o.type = "file" ∧ o.content.isSome = true
  | _ => False

/-- Spec-side predicate, amended reading: a file-typed object carrying a
nonempty encoded `content` field. -/
def carriesNonemptyEncodedBody : ContentResponse → Prop
  | .obj o => o.type = "file" ∧ ∃ c, o.content = some c ∧ c ≠ ""
  | _ => False

/-- One element of the changed-files list built by `fetchChangedFilesData`
(src/github.ts lines 44-51). -/
structure ChangedFileData where
  filename : String
  status : String
  additions : Nat
  deletions : Nat
  changes : Nat
  patch : Option String
deriving DecidableEq

/-- Result of the aggregation loop: the two accumulated strings plus the
list of `console.error` messages emitted for failed files. -/
structure AggregatedReport where
  rawCode : String
  astReport : String
  errorLog : List String
deriving DecidableEq

/-- One filename-labelled fenced section, as appended at lines 125 and 130
of src/github.ts. -/
def sectionBlock (name body : String) : String :=
  "### " ++ name ++ "\n```\n" ++ body ++ "\n```\n\n"

/-- The `console.error` message of the aggregation loop's catch block
(line 132 of src/github.ts). -/
def fileErrorLog (name : String) : String :=
  "Error processing file " ++ name ++ ":"

/-- One iteration of the `for` loop of `aggregateASTReport` (lines 116-134):
fetch the content; on success append the raw section, then parse; on a parse
failure the raw append is already done and stays; any failure logs and
continues. -/
def aggStep (fetch parse : String → Except String String)
    (acc : AggregatedReport) (file : ChangedFileData) : AggregatedReport :=
  match fetch file.filename with
  | .error _ => ⟨acc.rawCode, acc.astReport, acc.errorLog ++ [fileErrorLog file.filename]⟩
  | .ok content =>
    let raw := acc.rawCode ++ sectionBlock file.filename content
    match parse content with
    | .error _ => ⟨raw, acc.astReport, acc.errorLog ++ [fileErrorLog file.filename]⟩
    | .ok astString => ⟨raw, acc.astReport ++ sectionBlock file.filename astString, acc.errorLog⟩

/-- Embedding of `aggregateASTReport` (src/github.ts lines 108-136) with the
content fetch and the Tree-sitter parse abstracted as oracles. -/
def aggregateASTReport (fetch parse : String → Except String String)
    (changedFilesData : List ChangedFileData) : AggregatedReport :=
  changedFilesData.foldl (aggStep fetch parse) ⟨"", "", []⟩

/-- Concatenation of a list of strings, left to right. -/
def concatStrings : List String → String
  | [] => ""
  | s :: rest => s ++ concatStrings rest

/-- The labelled raw-code sections the loop produces, in input order: one
`(filename, content)` pair per file whose fetch succeeds. -/
def rawSections (fetch : String → Except String String)
    (files : List ChangedFileData) : List (String × String) :=
  files.filterMap fun f =>
    match fetch f.filename with
    | .ok c => some (f.filename, c)
    | .error _ => none

/-- The labelled AST sections the loop produces, in input order: one
`(filename, astString)` pair per file whose fetch and parse both succeed. -/
def astSections (fetch parse : String → Except String String)
    (files : List ChangedFileData) : List (String × String) :=
  files.filterMap fun f =>
    match fetch f.filename with
    | .ok c =>
      match parse c with
      | .ok a => some (f.filename, a)
      | .error _ => none
    | .error _ => none

/-- The error-log entries of the loop, in input order: one per file whose
fetch or parse fails. -/
def aggFailures (fetch parse : String → Except String String)
    (files : List ChangedFileData) : List String :=
  files.filterMap fun f =>
    match fetch f.filename with
    | .ok c =>
      match parse c with
      | .ok _ => none
      | .error _ => some (fileErrorLog f.filename)
    | .error _ => some (fileErrorLog f.filename)

/-- One prior comment as consumed by `handlePullRequestCommentEvent`:
`user` is the optional author login, `body` the optional text. -/
structure CommentRecord where
  user : Option String
  body : Option String
deriving DecidableEq

/-- The known bot identity compared against at line 263 of src/github.ts. -/
def botLogin : String := "pga-github-app"

/-- Role label of a comment (line 263-264): `[BOT RESPONSE]` when the author
login equals the bot identity, `[USER]` otherwise (also when absent). -/
def roleTag (c : CommentRecord) : String :=
  if c.user = some botLogin then "[BOT RESPONSE]" else "[USER]"

/-- Author name shown in the transcript (line 265): the login, or `unknown`
when the author is absent or the login is falsy (empty). -/
def commentUsername (c : CommentRecord) : String :=
  match c.user with
  | some u => if u = "" then "unknown" else u
  | none => "unknown"

/-- Body shown in the transcript (line 266): `comment.body?.substring(0, 500) || ''`. -/
def truncatedBody (c : CommentRecord) : String :=
  match c.body with
  | some b => jsSubstring b 500
  | none => ""

/-- Ellipsis marker (line 267): appended exactly when the body is present,
its length truthy, and greater than 500. -/
def ellipsisMarker (c : CommentRecord) : String :=
  match c.body with
  | some b => if b.length ≠ 0 ∧ 500 < b.length then "..." else ""
  | none => ""

/-- One rendered transcript entry (line 269). -/
def renderComment (c : CommentRecord) : String :=
  roleTag c ++ " " ++ commentUsername c ++ ": " ++ truncatedBody c ++ ellipsisMarker c

/-- The conversation-context transcript (lines 260-270):
`comments.slice(-30).map(render).join('\n\n')`.  JavaScript `slice(-30)`
drops all but the last 30 elements. -/
def formatPreviousComments (comments : List CommentRecord) : String :=
  String.intercalate "\n\n" ((comments.drop (comments.length - 30)).map renderComment)

/-- Spec-side window: the most recent `k` entries of a chronological list,
oldest of the window first. -/
def mostRecentWindow (k : Nat) (l : List CommentRecord) : List CommentRecord :=
  (l.reverse.take k).reverse

/-- Oracles consumed by `handlePullRequestEvent`: the changed-files listing,
the per-file content fetch and parse, the feedback generator, and the
comment-posting call. -/
structure PREnv where
  listFiles : Except String (List ChangedFileData)
  fetch : String → Except String String
  parse : String → Except String String
  generateCodeFeedback : List ChangedFileData → String → String → Except String String
  createComment : String → Except String Unit

/-- Observable outcome of one handler run: the returned/raised result, the
bodies passed to `createComment` (in call order), and the `console.error`
messages of the handler's own catch block. -/
structure HandlerTrace where
  result : Except String Unit
  posted : List String
  errorLog : List String
deriving DecidableEq

/-- The handler catch-block log message (lines 207 and 289 of src/github.ts). -/
def prErrorLog (msg : String) : String :=
  "Error handling PR event: " ++ msg

/-- Embedding of `handlePullRequestEvent` (lines 170-211): list changed
files, aggregate (which never throws), generate feedback, post it; any
exception is logged and re-raised; a failure before the post means no
`createComment` call. -/
def handlePullRequestEvent (env : PREnv) : HandlerTrace :=
  match env.listFiles with
  | .error e => ⟨.error e, [], [prErrorLog e]⟩
  | .ok changedFilesData =>
    match env.generateCodeFeedback changedFilesData
        (aggregateASTReport env.fetch env.parse changedFilesData).rawCode
        (aggregateASTReport env.fetch env.parse changedFilesData).astReport with
    | .error e => ⟨.error e, [], [prErrorLog e]⟩
    | .ok feedback =>
      match env.createComment feedback with
      | .error e => ⟨.error e, [feedback], [prErrorLog e]⟩
      | .ok _ => ⟨.ok (), [feedback], []⟩

/-- Oracles consumed by `handlePullRequestCommentEvent`: PR metadata
(opaque, rendered as a string), the comment listing, the changed-files
listing, fetch/parse, the follow-up generator, and the posting call. -/
structure CommentEnv where
  userComment : String
  getPullRequest : Except String String
  listComments : Except String (List CommentRecord)
  listFiles : Except String (List ChangedFileData)
  fetch : String → Except String String
  parse : String → Except String String
  generateFollowUpResponse :
    String → String → String → List ChangedFileData → String → String → Except String String
  createComment : String → Except String Unit

/-- Embedding of `handlePullRequestCommentEvent` (lines 218-293): get the PR,
list prior comments, list changed files, aggregate, build the transcript,
generate the follow-up, post it; any exception is logged and re-raised. -/
def handlePullRequestCommentEvent (env : CommentEnv) : HandlerTrace :=
  match env.getPullRequest with
  | .error e => ⟨.error e, [], [prErrorLog e]⟩
  | .ok pullRequest =>
    match env.listComments with
    | .error e => ⟨.error e, [], [prErrorLog e]⟩
    | .ok comments =>
      match env.listFiles with
      | .error e => ⟨.error e, [], [prErrorLog e]⟩
      | .ok changedFilesData =>
        match env.generateFollowUpResponse pullRequest env.userComment
            (formatPreviousComments comments) changedFilesData
            (aggregateASTReport env.fetch env.parse changedFilesData).rawCode
            (aggregateASTReport env.fetch env.parse changedFilesData).astReport with
        | .error e => ⟨.error e, [], [prErrorLog e]⟩
        | .ok followUpResponse =>
          match env.createComment followUpResponse with
          | .error e => ⟨.error e, [followUpResponse], [prErrorLog e]⟩
          | .ok _ => ⟨.ok (), [followUpResponse], []⟩

/-- Concrete fetch oracle for exercising a failing file among successes. -/
def wFetch1 : String → Except String String :=
  fun n => if n = "bad.ts" then .error "404" else .ok "let x = 1"

/-- Concrete parse oracle that always succeeds. -/
def wParse1 : String → Except String String :=
  fun c => .ok ("(program " ++ c ++ ")")

/-- Concrete changed-file list with one failing file. -/
def wFiles1 : List ChangedFileData :=
  [⟨"a.ts", "modified", 1, 0, 1, none⟩, ⟨"bad.ts", "added", 2, 0, 2, none⟩]

/-- The failing file of `wFiles1`. -/
def wBad1 : ChangedFileData := ⟨"bad.ts", "added", 2, 0, 2, none⟩

/-- Concrete fetch oracle that succeeds on every file. -/
def wFetch9 : String → Except String String :=
  fun n => .ok ("src-" ++ n)

/-- Concrete parse oracle that fails exactly on the content of `p.ts`. -/
def wParse9 : String → Except String String :=
  fun c => if c = "src-p.ts" then .error "syntax" else .ok "(ok)"

/-- Concrete changed-file list whose first file fetches but fails to parse. -/
def wFiles9 : List ChangedFileData :=
  [⟨"p.ts", "modified", 1, 0, 1, none⟩, ⟨"q.ts", "modified", 1, 0, 1, none⟩]

/-- The fetch-ok, parse-fail file of `wFiles9`. -/
def wFileP9 : ChangedFileData := ⟨"p.ts", "modified", 1, 0, 1, none⟩

/-- Concrete changed-file list for the handler environments. -/
def wFiles3 : List ChangedFileData := [⟨"m.ts", "modified", 1, 1, 2, some "@@ patch"⟩]

/-- Concrete PR-event environment whose feedback generator fails. -/
def wPREnv3 : PREnv :=
  ⟨.ok wFiles3, fun _ => .ok "code", fun _ => .ok "(ast)",
   fun _ _ _ => .error "gen down", fun _ => .ok ()⟩

/-- Concrete comment-event environment whose follow-up generator fails. -/
def wCommentEnv3 : CommentEnv :=
  ⟨"please fix", .ok "PR#5", .ok [⟨some "alice", some "hi"⟩], .ok wFiles3,
   fun _ => .ok "code", fun _ => .ok "(ast)",
   fun _ _ _ _ _ _ => .error "follow-up down", fun _ => .ok ()⟩

/-- Concrete comment thread exercising both role labels. -/
def wComments4 : List CommentRecord :=
  [⟨some "alice", some "one"⟩, ⟨some "pga-github-app", some "two"⟩]

/-- Concrete comment record with a short body. -/
def wComment5 : CommentRecord := ⟨some "alice", some "hi"⟩

/-! Helper lemmas -/

theorem string_eq_empty_iff (s : String) : s = "" ↔ s.data = [] := by
  rw [String.ext_iff]

theorem char_toNat_lt (c : Char) : c.toNat < 1114112 := by
  have h := c.valid
  have hd : c.toNat = c.val.toNat := rfl
  rcases h with h | h <;> omega

theorem concatStrings_data_of_mem (x : String) (l : List String) (h : x ∈ l) :
    x.data <:+: (concatStrings l).data := by
  induction l with
  | nil => cases h
  | cons s rest ih =>
    rw [List.mem_cons] at h
    have hdata : (concatStrings (s :: rest)).data = s.data ++ (concatStrings rest).data := by
      show (s ++ concatStrings rest).data = _
      exact String.data_append s (concatStrings rest)
    rcases h with h | h
    · refine ⟨[], (concatStrings rest).data, ?_⟩
      simp [hdata, h]
    · obtain ⟨p, q, hpq⟩ := ih h
      exact ⟨s.data ++ p, q, by simp [hdata, ← hpq, List.append_assoc]⟩

theorem filterMap_fst_sublist (files : List ChangedFileData)
    (g : ChangedFileData → Option (String × String))
    (hg : ∀ f p, g f = some p → p.1 = f.filename) :
    ((files.filterMap g).map Prod.fst).Sublist (files.map ChangedFileData.filename) := by
  induction files with
  | nil => simp
  | cons f rest ih =>
    rw [List.filterMap_cons]
    cases hgf : g f with
    | none => exact ih.cons f.filename
    | some p =>
      have : p.1 = f.filename := hg f p hgf
      simpa [this] using ih.cons₂ f.filename

theorem foldl_aggStep_spec (fetch parse : String → Except String String)
    (files : List ChangedFileData) :
    ∀ acc : AggregatedReport,
      files.foldl (aggStep fetch parse) acc =
        ⟨acc.rawCode ++ concatStrings ((rawSections fetch files).map fun p => sectionBlock p.1 p.2),
         acc.astReport ++
           concatStrings ((astSections fetch parse files).map fun p => sectionBlock p.1 p.2),
         acc.errorLog ++ aggFailures fetch parse files⟩ := by
  induction files with
  | nil =>
    intro acc
    simp [rawSections, astSections, aggFailures, concatStrings, String.append_empty]
  | cons f rest ih =>
    intro acc
    rw [List.foldl_cons, ih]
    cases hf : fetch f.filename with
    | error e =>
      simp only [aggStep, hf, rawSections, astSections, aggFailures, List.filterMap_cons]
      simp [rawSections, astSections, aggFailures, hf, List.append_assoc]
    | ok c =>
      cases hp : parse c with
      | error e =>
        simp only [aggStep, hf, hp]
        simp only [rawSections, astSections, aggFailures, List.filterMap_cons, hf, hp]
        simp [concatStrings, String.append_assoc, List.append_assoc]
      | ok a =>
        simp only [aggStep, hf, hp]
        simp only [rawSections, astSections, aggFailures, List.filterMap_cons, hf, hp]
        simp [concatStrings, String.append_assoc, List.append_assoc]

theorem aggregateASTReport_spec (fetch parse : String → Except String String)
    (files : List ChangedFileData) :
    aggregateASTReport fetch parse files =
      ⟨concatStrings ((rawSections fetch files).map fun p => sectionBlock p.1 p.2),
       concatStrings ((astSections fetch parse files).map fun p => sectionBlock p.1 p.2),
       aggFailures fetch parse files⟩ := by
  show files.foldl (aggStep fetch parse) ⟨"", "", []⟩ = _
  rw [foldl_aggStep_spec]
  congr 1

theorem mostRecentWindow_eq_drop (l : List CommentRecord) :
    mostRecentWindow 30 l = l.drop (l.length - 30) := by
  show (l.reverse.take 30).reverse = _
  rw [List.take_reverse, List.reverse_reverse]

theorem string_prefix_append (a b : String) : a.data <+: (a ++ b).data := by
  rw [String.data_append]
  exact List.prefix_append _ _

/-- Claim C2: for every file list, the aggregated `rawCode` and `astReport`
strings are exactly the concatenation, in input order, of the labelled
sections of the surviving files, and the label sequences are in-order
subsequences of the input filename sequence. -/
theorem aggregateASTReport_preserves_input_order
    (fetch parse : String → Except String String) (files : List ChangedFileData) :
    (aggregateASTReport fetch parse files).rawCode
      = concatStrings ((rawSections fetch files).map fun p => sectionBlock p.1 p.2) ∧
    (aggregateASTReport fetch parse files).astReport
      = concatStrings ((astSections fetch parse files).map fun p => sectionBlock p.1 p.2) ∧
    ((rawSections fetch files).map Prod.fst).Sublist (files.map ChangedFileData.filename) ∧
    ((astSections fetch parse files).map Prod.fst).Sublist (files.map ChangedFileData.filename) := by
  refine ⟨?_, ?_, ?_, ?_⟩
  · rw [aggregateASTReport_spec]
  · rw [aggregateASTReport_spec]
  · simp only [rawSections]
    refine filterMap_fst_sublist _ _ ?_
    intro f p hp
    cases hfc : fetch f.filename with
    | ok c =>
      rw [hfc] at hp
      simp only [Option.some.injEq] at hp
      rw [← hp]
    | error e =>
      rw [hfc] at hp
      simp at hp
  · simp only [astSections]
    refine filterMap_fst_sublist _ _ ?_
    intro f p hp
    cases hfc : fetch f.filename with
    | ok c =>
      cases hpc : parse c with
      | ok a =>
        simp only [hfc, hpc, Option.some.injEq] at hp
        rw [← hp]
      | error e =>
        simp [hfc, hpc] at hp
    | error e =>
      simp [hfc] at hp

/-- Claim C4: the conversation transcript is built from exactly the most
recent `min(n, 30)` comments, a suffix of the chronological input, oldest
of the window first. -/
theorem formatPreviousComments_window (comments : List CommentRecord) :
    formatPreviousComments comments
      = String.intercalate "\n\n" ((mostRecentWindow 30 comments).map renderComment) ∧
    (mostRecentWindow 30 comments).length = min comments.length 30 ∧
    mostRecentWindow 30 comments <:+ comments := by
  rw [mostRecentWindow_eq_drop]
  refine ⟨rfl, ?_, List.drop_suffix _ _⟩
  rw [List.length_drop]
  omega

/-- Claim C5: every rendered transcript entry carries a body of at most 500
characters, and the ellipsis marker appears if and only if the original
body exceeds 500 characters. -/
theorem transcript_truncation_cap_iff (c : CommentRecord) :
    (truncatedBody c).length ≤ 500 ∧
    ((ellipsisMarker c = "...") ↔ ∃ b, c.body = some b ∧ 500 < b.length) ∧
    (ellipsisMarker c = "..." ∨ ellipsisMarker c = "") ∧
    renderComment c = roleTag c ++ " " ++ commentUsername c ++ ": "
      ++ truncatedBody c ++ ellipsisMarker c := by
  refine ⟨?_, ?_, ?_, rfl⟩
  · cases hb : c.body with
    | none => simp [truncatedBody, hb]
    | some b =>
      simp only [truncatedBody, hb, jsSubstring]
      show (b.data.take 500).length ≤ 500
      rw [List.length_take]
      exact min_le_left _ _
  · cases hb : c.body with
    | none =>
      simp only [ellipsisMarker, hb]
      constructor
      · intro h
        exact absurd h (by decide)
      · rintro ⟨b, hb2, -⟩
        cases hb2
    | some b =>
      simp only [ellipsisMarker, hb]
      by_cases h5 : 500 < b.length
      · rw [if_pos ⟨by omega, h5⟩]
        exact ⟨fun _ => ⟨b, rfl, h5⟩, fun _ => rfl⟩
      · rw [if_neg (fun hc => h5 hc.2)]
        constructor
        · intro h
          exact absurd h (by decide)
        · rintro ⟨b', hb', h5'⟩
          obtain rfl : b = b' := by injection hb'
          exact absurd h5' h5
  · cases hb : c.body with
    | none =>
      simp [ellipsisMarker, hb]
    | some b =>
      simp only [ellipsisMarker, hb]
      by_cases hc : b.length ≠ 0 ∧ 500 < b.length
      · rw [if_pos hc]
        exact Or.inl rfl
      · rw [if_neg hc]
        exact Or.inr rfl

/-- Claim C8: a transcript entry opens with `[BOT RESPONSE]` exactly when
its author login equals the bot identity, and with `[USER]` otherwise,
including when the author is absent. -/
theorem transcript_role_label_iff (c : CommentRecord) :
    (roleTag c = "[BOT RESPONSE]" ↔ c.user = some botLogin) ∧
    (roleTag c = "[USER]" ↔ c.user ≠ some botLogin) ∧
    (c.user = none → roleTag c = "[USER]") ∧
    (roleTag c).data <+: (renderComment c).data := by
  have hne : ("[USER]" : String) ≠ "[BOT RESPONSE]" := by decide
  have hne2 : ("[BOT RESPONSE]" : String) ≠ "[USER]" := by decide
  refine ⟨?_, ?_, ?_, ?_⟩
  · by_cases h : c.user = some botLogin <;> simp [roleTag, h, hne, hne2]
  · by_cases h : c.user = some botLogin <;> simp [roleTag, h, hne, hne2]
  · intro h
    simp [roleTag, h]
  · simp only [renderComment]
    exact ((((string_prefix_append _ _).trans (string_prefix_append _ _)).trans
      (string_prefix_append _ _)).trans (string_prefix_append _ _)).trans
      (string_prefix_append _ _)

/-- Claim C10: a file-typed response whose encoded content field is the
empty string makes the resolver raise `UnreadableContent` instead of
returning the empty text, because the branch tests truthiness. -/
theorem empty_content_file_unreadable (path : String) :
    fetchFullFileContent path (.obj ⟨"file", some ""⟩) = .error (.unreadableContent path) ∧
    fetchFullFileContent path (.obj ⟨"file", some ""⟩) ≠ .ok "" := by
  have h1 : fetchFullFileContent path (.obj ⟨"file", some ""⟩)
      = .error (.unreadableContent path) := rfl
  refine ⟨h1, ?_⟩
  rw [h1]
  intro h
  exact Except.noConfusion h

theorem handlePullRequestEvent_error_log (env : PREnv) (e : String)
    (h : (handlePullRequestEvent env).result = .error e) :
    (handlePullRequestEvent env).errorLog = [prErrorLog e] := by
  cases ha : env.listFiles with
  | error e0 =>
    simp only [handlePullRequestEvent, ha] at h ⊢
    obtain rfl : e0 = e := by simpa using h
    rfl
  | ok files =>
    cases hg : env.generateCodeFeedback files
        (aggregateASTReport env.fetch env.parse files).rawCode
        (aggregateASTReport env.fetch env.parse files).astReport with
    | error e0 =>
      simp only [handlePullRequestEvent, ha, hg] at h ⊢
      obtain rfl : e0 = e := by simpa using h
      rfl
    | ok fb =>
      cases hp : env.createComment fb with
      | error e0 =>
        simp only [handlePullRequestEvent, ha, hg, hp] at h ⊢
        obtain rfl : e0 = e := by simpa using h
        rfl
      | ok u =>
        simp only [handlePullRequestEvent, ha, hg, hp] at h
        exact absurd h (by simp)

theorem handlePullRequestCommentEvent_error_log (env : CommentEnv) (e : String)
    (h : (handlePullRequestCommentEvent env).result = .error e) :
    (handlePullRequestCommentEvent env).errorLog = [prErrorLog e] := by
  cases ha : env.getPullRequest with
  | error e0 =>
    simp only [handlePullRequestCommentEvent, ha] at h ⊢
    obtain rfl : e0 = e := by simpa using h
    rfl
  | ok pr =>
    cases hb : env.listComments with
    | error e0 =>
      simp only [handlePullRequestCommentEvent, ha, hb] at h ⊢
      obtain rfl : e0 = e := by simpa using h
      rfl
    | ok comments =>
      cases hc : env.listFiles with
      | error e0 =>
        simp only [handlePullRequestCommentEvent, ha, hb, hc] at h ⊢
        obtain rfl : e0 = e := by simpa using h
        rfl
      | ok files =>
        cases hg : env.generateFollowUpResponse pr env.userComment
            (formatPreviousComments comments) files
            (aggregateASTReport env.fetch env.parse files).rawCode
            (aggregateASTReport env.fetch env.parse files).astReport with
        | error e0 =>
          simp only [handlePullRequestCommentEvent, ha, hb, hc, hg] at h ⊢
          obtain rfl : e0 = e := by simpa using h
          rfl
        | ok fb =>
          cases hp : env.createComment fb with
          | error e0 =>
            simp only [handlePullRequestCommentEvent, ha, hb, hc, hg, hp] at h ⊢
            obtain rfl : e0 = e := by simpa using h
            rfl
          | ok u =>
            simp only [handlePullRequestCommentEvent, ha, hb, hc, hg, hp] at h
            exact absurd h (by simp)

/-- Claim C1: a file whose fetch or parse fails is logged by filename while
aggregation completes, and every successfully processed file still has its
labelled section inside both aggregated strings. -/
theorem aggregateASTReport_isolates_failures
    (fetch parse : String → Except String String) (files : List ChangedFileData)
    (f : ChangedFileData) (hf : f ∈ files)
    (hfail : (∃ e, fetch f.filename = .error e) ∨
             (∃ c e, fetch f.filename = .ok c ∧ parse c = .error e)) :
    fileErrorLog f.filename ∈ (aggregateASTReport fetch parse files).errorLog ∧
    (∀ g ∈ files, ∀ c a, fetch g.filename = .ok c → parse c = .ok a →
      (sectionBlock g.filename c).data <:+: (aggregateASTReport fetch parse files).rawCode.data ∧
      (sectionBlock g.filename a).data
        <:+: (aggregateASTReport fetch parse files).astReport.data) := by
  rw [aggregateASTReport_spec]
  constructor
  · show fileErrorLog f.filename ∈ aggFailures fetch parse files
    simp only [aggFailures]
    rw [List.mem_filterMap]
    refine ⟨f, hf, ?_⟩
    rcases hfail with ⟨e, he⟩ | ⟨c, e, hc, hp⟩
    · simp [he]
    · simp [hc, hp]
  · intro g hg c a hc hp
    constructor
    · apply concatStrings_data_of_mem
      refine List.mem_map.mpr ⟨(g.filename, c), ?_, rfl⟩
      simp only [rawSections]
      rw [List.mem_filterMap]
      exact ⟨g, hg, by simp [hc]⟩
    · apply concatStrings_data_of_mem
      refine List.mem_map.mpr ⟨(g.filename, a), ?_, rfl⟩
      simp only [astSections]
      rw [List.mem_filterMap]
      exact ⟨g, hg, by simp [hc, hp]⟩

/-- Witness for C1 at a concrete two-file batch with one failing fetch. -/
theorem aggregateASTReport_isolates_failures_witness :
    fileErrorLog wBad1.filename ∈ (aggregateASTReport wFetch1 wParse1 wFiles1).errorLog ∧
    (∀ g ∈ wFiles1, ∀ c a, wFetch1 g.filename = .ok c → wParse1 c = .ok a →
      (sectionBlock g.filename c).data <:+: (aggregateASTReport wFetch1 wParse1 wFiles1).rawCode.data ∧
      (sectionBlock g.filename a).data
        <:+: (aggregateASTReport wFetch1 wParse1 wFiles1).astReport.data) :=
  aggregateASTReport_isolates_failures wFetch1 wParse1 wFiles1 wBad1 (by decide)
    (Or.inl ⟨"404", rfl⟩)

/-- Claim C9: a file that fetches but fails to parse keeps its raw-code
section (the append is not rolled back) while no AST section is emitted for
it. -/
theorem parse_failure_keeps_raw_section
    (fetch parse : String → Except String String) (files : List ChangedFileData)
    (f : ChangedFileData) (c e : String)
    (hf : f ∈ files) (hfetch : fetch f.filename = .ok c) (hparse : parse c = .error e)
    (hnodup : (files.map ChangedFileData.filename).Nodup) :
    f.filename ∈ (rawSections fetch files).map Prod.fst ∧
    f.filename ∉ (astSections fetch parse files).map Prod.fst ∧
    (sectionBlock f.filename c).data <:+: (aggregateASTReport fetch parse files).rawCode.data ∧
    (aggregateASTReport fetch parse files).astReport
      = concatStrings ((astSections fetch parse files).map fun p => sectionBlock p.1 p.2) := by
  refine ⟨?_, ?_, ?_, ?_⟩
  · refine List.mem_map.mpr ⟨(f.filename, c), ?_, rfl⟩
    simp only [rawSections]
    rw [List.mem_filterMap]
    exact ⟨f, hf, by simp [hfetch]⟩
  · intro hmem
    obtain ⟨p, hp, hfst⟩ := List.mem_map.mp hmem
    simp only [astSections] at hp
    rw [List.mem_filterMap] at hp
    obtain ⟨g, hg, hgp⟩ := hp
    cases hgc : fetch g.filename with
    | error e2 => simp [hgc] at hgp
    | ok c2 =>
      cases hgp2 : parse c2 with
      | error e2 => simp [hgc, hgp2] at hgp
      | ok a2 =>
        simp only [hgc, hgp2, Option.some.injEq] at hgp
        have hnames : g.filename = f.filename := by
          rw [← hgp] at hfst
          exact hfst
        have hgf : g = f := List.inj_on_of_nodup_map hnodup hg hf hnames
        rw [hgf, hfetch] at hgc
        obtain rfl : c = c2 := by injection hgc
        rw [hgp2] at hparse
        exact Except.noConfusion hparse
  · rw [aggregateASTReport_spec]
    apply concatStrings_data_of_mem
    refine List.mem_map.mpr ⟨(f.filename, c), ?_, rfl⟩
    simp only [rawSections]
    rw [List.mem_filterMap]
    exact ⟨f, hf, by simp [hfetch]⟩
  · rw [aggregateASTReport_spec]

/-- Witness for C9 at a concrete batch whose first file parses with an error. -/
theorem parse_failure_keeps_raw_section_witness :
    wFileP9.filename ∈ (rawSections wFetch9 wFiles9).map Prod.fst ∧
    wFileP9.filename ∉ (astSections wFetch9 wParse9 wFiles9).map Prod.fst ∧
    (sectionBlock wFileP9.filename "src-p.ts").data
      <:+: (aggregateASTReport wFetch9 wParse9 wFiles9).rawCode.data ∧
    (aggregateASTReport wFetch9 wParse9 wFiles9).astReport
      = concatStrings ((astSections wFetch9 wParse9 wFiles9).map fun p => sectionBlock p.1 p.2) :=
  parse_failure_keeps_raw_section wFetch9 wParse9 wFiles9 wFileP9 "src-p.ts" "syntax"
    (by decide) rfl rfl (by decide)

/-- Claim C3: when the feedback generator fails, no comment is posted and the
error is logged and re-raised unchanged, in both handlers; and in general any
error outcome of a handler is logged with the handler's catch-block message. -/
theorem generator_failure_prevents_posting
    (env : PREnv) (cenv : CommentEnv) (files cfiles : List ChangedFileData)
    (pr : String) (comments : List CommentRecord) (e e2 : String)
    (h1 : env.listFiles = .ok files)
    (h2 : env.generateCodeFeedback files
      (aggregateASTReport env.fetch env.parse files).rawCode
      (aggregateASTReport env.fetch env.parse files).astReport = .error e)
    (h3 : cenv.getPullRequest = .ok pr)
    (h4 : cenv.listComments = .ok comments)
    (h5 : cenv.listFiles = .ok cfiles)
    (h6 : cenv.generateFollowUpResponse pr cenv.userComment
      (formatPreviousComments comments) cfiles
      (aggregateASTReport cenv.fetch cenv.parse cfiles).rawCode
      (aggregateASTReport cenv.fetch cenv.parse cfiles).astReport = .error e2) :
    handlePullRequestEvent env = ⟨.error e, [], [prErrorLog e]⟩ ∧
    handlePullRequestCommentEvent cenv = ⟨.error e2, [], [prErrorLog e2]⟩ ∧
    (∀ env9 : PREnv, ∀ e9, (handlePullRequestEvent env9).result = .error e9 →
       (handlePullRequestEvent env9).errorLog = [prErrorLog e9]) ∧
    (∀ cenv9 : CommentEnv, ∀ e9, (handlePullRequestCommentEvent cenv9).result = .error e9 →
       (handlePullRequestCommentEvent cenv9).errorLog = [prErrorLog e9]) := by
  refine ⟨?_, ?_, ?_, ?_⟩
  · simp only [handlePullRequestEvent, h1, h2]
  · simp only [handlePullRequestCommentEvent, h3, h4, h5, h6]
  · exact handlePullRequestEvent_error_log
  · exact handlePullRequestCommentEvent_error_log

/-- Witness for C3 at concrete environments whose generators fail. -/
theorem generator_failure_prevents_posting_witness :
    handlePullRequestEvent wPREnv3 = ⟨.error "gen down", [], [prErrorLog "gen down"]⟩ ∧
    handlePullRequestCommentEvent wCommentEnv3
      = ⟨.error "follow-up down", [], [prErrorLog "follow-up down"]⟩ ∧
    (∀ env9 : PREnv, ∀ e9, (handlePullRequestEvent env9).result = .error e9 →
       (handlePullRequestEvent env9).errorLog = [prErrorLog e9]) ∧
    (∀ cenv9 : CommentEnv, ∀ e9, (handlePullRequestCommentEvent cenv9).result = .error e9 →
       (handlePullRequestCommentEvent cenv9).errorLog = [prErrorLog e9]) :=
  generator_failure_prevents_posting wPREnv3 wCommentEnv3 wFiles3 wFiles3
    "PR#5" [⟨some "alice", some "hi"⟩] "gen down" "follow-up down"
    rfl rfl rfl rfl rfl rfl

/-- Counterexample to C6 as literally stated: a file object carrying a
present-but-empty encoded body is neither plain text nor a directory, yet
the resolver raises `UnreadableContent` for it, against the claimed
biconditional. -/
theorem fetch_unreadable_iff_counterexample :
    ¬ ((fetchFullFileContent "a.txt" (.obj ⟨"file", some ""⟩)
          = .error (.unreadableContent "a.txt")) ↔
       (¬ isPlainText (.obj ⟨"file", some ""⟩) ∧
        ¬ isDirectoryShaped (.obj ⟨"file", some ""⟩) ∧
        ¬ carriesEncodedBody (.obj ⟨"file", some ""⟩))) := by
  intro hiff
  have hleft : fetchFullFileContent "a.txt" (.obj ⟨"file", some ""⟩)
      = .error (.unreadableContent "a.txt") := rfl
  have h := hiff.mp hleft
  exact h.2.2 ⟨rfl, rfl⟩

/-- Amended C6: `NotAFile` is raised exactly for directory-shaped responses,
and `UnreadableContent` exactly for a non-directory response that is neither
plain text nor a file object carrying a nonempty encoded body. -/
theorem fetchFullFileContent_error_characterization (path : String) (r : ContentResponse) :
    (fetchFullFileContent path r = .error (.notAFile path) ↔ isDirectoryShaped r) ∧
    (fetchFullFileContent path r = .error (.unreadableContent path) ↔
       ¬ isPlainText r ∧ ¬ isDirectoryShaped r ∧ ¬ carriesNonemptyEncodedBody r) := by
  cases r with
  | text s =>
    constructor
    · simp [fetchFullFileContent, isDirectoryShaped]
    · simp [fetchFullFileContent, isPlainText]
  | dir entries =>
    constructor
    · simp [fetchFullFileContent, isDirectoryShaped]
    · simp [fetchFullFileContent, isDirectoryShaped]
  | obj o =>
    by_cases ht : o.type = "file"
    · cases hc : o.content with
      | none =>
        constructor
        · simp [fetchFullFileContent, ht, hc, isDirectoryShaped]
        · simp [fetchFullFileContent, ht, hc, isPlainText, isDirectoryShaped,
            carriesNonemptyEncodedBody]
      | some c =>
        by_cases hce : c = ""
        · subst hce
          constructor
          · simp [fetchFullFileContent, ht, hc, isDirectoryShaped]
          · simp [fetchFullFileContent, ht, hc, isPlainText, isDirectoryShaped,
              carriesNonemptyEncodedBody]
        · constructor
          · simp [fetchFullFileContent, ht, hc, hce, isDirectoryShaped]
          · simp [fetchFullFileContent, ht, hc, hce, isPlainText, isDirectoryShaped,
              carriesNonemptyEncodedBody]
    · constructor
      · simp [fetchFullFileContent, ht, isDirectoryShaped]
      · simp [fetchFullFileContent, ht, isPlainText, isDirectoryShaped,
          carriesNonemptyEncodedBody]

theorem b64Val_b64Char : ∀ v, v < 64 → b64Val (b64Char v) = some v := by decide

theorem b64Val_pad : b64Val '=' = none := by decide

theorem base64_roundtrip (bs : List Nat) (h : ∀ b ∈ bs, b < 256) :
    base64DecodeChars (base64EncodeBytes bs) = bs := by
  induction bs using base64EncodeBytes.induct with
  | case1 b0 b1 b2 rest ih =>
    have h0 : b0 < 256 := h b0 (by simp)
    have h1 : b1 < 256 := h b1 (by simp)
    have h2 : b2 < 256 := h b2 (by simp)
    have e0 := b64Val_b64Char (b0 / 4) (by omega)
    have e1 := b64Val_b64Char ((b0 % 4) * 16 + b1 / 16) (by omega)
    have e2 := b64Val_b64Char ((b1 % 16) * 4 + b2 / 64) (by omega)
    have e3 := b64Val_b64Char (b2 % 64) (by omega)
    have ihh := ih (fun b hb => h b (by simp [hb]))
    simp only [base64DecodeChars] at ihh
    simp only [base64DecodeChars, base64EncodeBytes, List.filterMap_cons, e0, e1, e2, e3,
      base64DecodeVals, ihh, List.cons.injEq, and_true]
    refine ⟨by omega, by omega, by omega⟩
  | case2 b0 b1 =>
    have h0 : b0 < 256 := h b0 (by simp)
    have h1 : b1 < 256 := h b1 (by simp)
    have e0 := b64Val_b64Char (b0 / 4) (by omega)
    have e1 := b64Val_b64Char ((b0 % 4) * 16 + b1 / 16) (by omega)
    have e2 := b64Val_b64Char ((b1 % 16) * 4) (by omega)
    simp only [base64DecodeChars, base64EncodeBytes, List.filterMap_cons, e0, e1, e2,
      b64Val_pad, List.filterMap_nil, base64DecodeVals, List.cons.injEq, and_true]
    refine ⟨by omega, by omega⟩
  | case3 b0 =>
    have h0 : b0 < 256 := h b0 (by simp)
    have e0 := b64Val_b64Char (b0 / 4) (by omega)
    have e1 := b64Val_b64Char ((b0 % 4) * 16) (by omega)
    simp only [base64DecodeChars, base64EncodeBytes, List.filterMap_cons, e0, e1,
      b64Val_pad, List.filterMap_nil, base64DecodeVals, List.cons.injEq, and_true]
    omega
  | case4 => rfl

theorem utf8EncodeChar_lt (c : Char) : ∀ b ∈ utf8EncodeChar c, b < 256 := by
  have hv := char_toNat_lt c
  intro b hb
  simp only [utf8EncodeChar] at hb
  by_cases hx1 : c.toNat < 128
  · rw [if_pos hx1] at hb
    simp at hb
    omega
  · rw [if_neg hx1] at hb
    by_cases hx2 : c.toNat < 2048
    · rw [if_pos hx2] at hb
      simp at hb
      rcases hb with rfl | rfl <;> omega
    · rw [if_neg hx2] at hb
      by_cases hx3 : c.toNat < 65536
      · rw [if_pos hx3] at hb
        simp at hb
        rcases hb with rfl | rfl | rfl <;> omega
      · rw [if_neg hx3] at hb
        simp at hb
        rcases hb with rfl | rfl | rfl | rfl <;> omega

theorem utf8Encode_lt (cs : List Char) : ∀ b ∈ utf8Encode cs, b < 256 := by
  induction cs with
  | nil => simp [utf8Encode]
  | cons c cs ih =>
    intro b hb
    simp only [utf8Encode] at hb
    rw [List.mem_append] at hb
    rcases hb with hb | hb
    · exact utf8EncodeChar_lt c b hb
    · exact ih b hb

theorem utf8DecodeTotal_encodeChar (c : Char) (rest : List Nat) :
    utf8DecodeTotal (utf8EncodeChar c ++ rest) = c :: utf8DecodeTotal rest := by
  have hv := char_toNat_lt c
  by_cases h1 : c.toNat < 128
  · have he : utf8EncodeChar c = [c.toNat] := by simp [utf8EncodeChar, h1]
    rw [he]
    show utf8DecodeTotal (c.toNat :: rest) = _
    rw [utf8DecodeTotal]
    rw [if_pos h1, Char.ofNat_toNat]
  · by_cases h2 : c.toNat < 2048
    · have he : utf8EncodeChar c = [192 + c.toNat / 64, 128 + c.toNat % 64] := by
        simp [utf8EncodeChar, h1, h2]
      have harith : (192 + c.toNat / 64 - 192) * 64 + (128 + c.toNat % 64 - 128) = c.toNat := by
        omega
      rw [he]
      show utf8DecodeTotal ((192 + c.toNat / 64) :: (128 + c.toNat % 64) :: rest) = _
      rw [utf8DecodeTotal]
      rw [if_neg (by omega), if_neg (by omega), if_pos (by omega), if_neg (by simp)]
      dsimp only [List.headD, List.drop]
      rw [harith, Char.ofNat_toNat]
    · by_cases h3 : c.toNat < 65536
      · have he : utf8EncodeChar c
            = [224 + c.toNat / 4096, 128 + (c.toNat / 64) % 64, 128 + c.toNat % 64] := by
          simp [utf8EncodeChar, h1, h2, h3]
        have harith : (224 + c.toNat / 4096 - 224) * 4096
            + (128 + (c.toNat / 64) % 64 - 128) * 64 + (128 + c.toNat % 64 - 128) = c.toNat := by
          omega
        rw [he]
        show utf8DecodeTotal ((224 + c.toNat / 4096) :: (128 + (c.toNat / 64) % 64)
            :: (128 + c.toNat % 64) :: rest) = _
        rw [utf8DecodeTotal]
        rw [if_neg (by omega), if_neg (by omega), if_neg (by omega), if_pos (by omega),
          if_neg (by simp)]
        dsimp only [List.headD, List.drop]
        rw [harith, Char.ofNat_toNat]
      · have he : utf8EncodeChar c
            = [240 + c.toNat / 262144, 128 + (c.toNat / 4096) % 64,
               128 + (c.toNat / 64) % 64, 128 + c.toNat % 64] := by
          simp [utf8EncodeChar, h1, h2, h3]
        have harith : (240 + c.toNat / 262144 - 240) * 262144
            + (128 + (c.toNat / 4096) % 64 - 128) * 4096
            + (128 + (c.toNat / 64) % 64 - 128) * 64 + (128 + c.toNat % 64 - 128) = c.toNat := by
          omega
        rw [he]
        show utf8DecodeTotal ((240 + c.toNat / 262144) :: (128 + (c.toNat / 4096) % 64)
            :: (128 + (c.toNat / 64) % 64) :: (128 + c.toNat % 64) :: rest) = _
        rw [utf8DecodeTotal]
        rw [if_neg (by omega), if_neg (by omega), if_neg (by omega), if_neg (by omega),
          if_neg (by simp)]
        dsimp only [List.headD, List.drop]
        rw [harith, Char.ofNat_toNat]

theorem utf8_roundtrip (cs : List Char) : utf8DecodeTotal (utf8Encode cs) = cs := by
  induction cs with
  | nil => simp [utf8Encode, utf8DecodeTotal]
  | cons c cs ih =>
    simp only [utf8Encode]
    rw [utf8DecodeTotal_encodeChar, ih]

theorem utf8EncodeChar_ne_nil (c : Char) : utf8EncodeChar c ≠ [] := by
  simp only [utf8EncodeChar]
  by_cases h1 : c.toNat < 128
  · simp [h1]
  · by_cases h2 : c.toNat < 2048
    · simp [h1, h2]
    · by_cases h3 : c.toNat < 65536
      · simp [h1, h2, h3]
      · simp [h1, h2, h3]

theorem utf8Encode_ne_nil (cs : List Char) (h : cs ≠ []) : utf8Encode cs ≠ [] := by
  cases cs with
  | nil => exact absurd rfl h
  | cons c cs =>
    simp only [utf8Encode]
    intro hx
    exact utf8EncodeChar_ne_nil c (List.append_eq_nil.mp hx).1

theorem base64EncodeBytes_ne_nil (bs : List Nat) (h : bs ≠ []) : base64EncodeBytes bs ≠ [] := by
  cases bs with
  | nil => exact absurd rfl h
  | cons b0 t =>
    cases t with
    | nil => simp [base64EncodeBytes]
    | cons b1 t2 =>
      cases t2 with
      | nil => simp [base64EncodeBytes]
      | cons b2 t3 => simp [base64EncodeBytes]

/-- Counterexample to C7 as literally stated over every text: for the empty
text the platform encoding is the empty content field, which the resolver
rejects as `UnreadableContent` instead of returning the empty text. -/
theorem encoded_roundtrip_empty_counterexample :
    fetchFullFileContent "a.txt" (.obj ⟨"file", some (utf8Base64Encode "")⟩)
      = .error (.unreadableContent "a.txt") ∧
    fetchFullFileContent "a.txt" (.obj ⟨"file", some (utf8Base64Encode "")⟩) ≠ .ok "" := by
  decide

/-- Amended C7: for every nonempty UTF-8 text, resolving a file object whose
encoded body is the platform's base64 encoding of that text returns exactly
the original text (the decode chain is a left inverse of the encoding). -/
theorem fetchFullFileContent_base64_roundtrip (path s : String) (h : s ≠ "") :
    fetchFullFileContent path (.obj ⟨"file", some (utf8Base64Encode s)⟩) = .ok s := by
  have hdata : s.data ≠ [] := fun hx => h ((string_eq_empty_iff s).mpr hx)
  have henc : base64EncodeBytes (utf8Encode s.data) ≠ [] :=
    base64EncodeBytes_ne_nil _ (utf8Encode_ne_nil _ hdata)
  have hne : utf8Base64Encode s ≠ "" :=
    fun hx => henc ((string_eq_empty_iff (utf8Base64Encode s)).mp hx)
  have hred : fetchFullFileContent path (.obj ⟨"file", some (utf8Base64Encode s)⟩)
      = if utf8Base64Encode s = "" then .error (.unreadableContent path)
        else .ok (bufferBase64ToUtf8 (utf8Base64Encode s)) := rfl
  rw [hred, if_neg hne]
  congr 1
  show String.mk (utf8DecodeTotal (base64DecodeChars (base64EncodeBytes (utf8Encode s.data)))) = s
  rw [base64_roundtrip _ (utf8Encode_lt s.data), utf8_roundtrip]

/-- Witness for the amended C7 at a text exercising all four UTF-8 widths. -/
theorem fetchFullFileContent_base64_roundtrip_witness :
    ("A¢€😀" : String) ≠ "" ∧
    fetchFullFileContent "f.txt" (.obj ⟨"file", some (utf8Base64Encode "A¢€😀")⟩)
      = .ok "A¢€😀" :=
  ⟨by decide, fetchFullFileContent_base64_roundtrip "f.txt" "A¢€😀" (by decide)⟩

/-- Witness for C2 at a concrete two-file batch. -/
theorem aggregateASTReport_preserves_input_order_witness :
    (aggregateASTReport wFetch1 wParse1 wFiles1).rawCode
      = concatStrings ((rawSections wFetch1 wFiles1).map fun p => sectionBlock p.1 p.2) ∧
    (aggregateASTReport wFetch1 wParse1 wFiles1).astReport
      = concatStrings ((astSections wFetch1 wParse1 wFiles1).map fun p => sectionBlock p.1 p.2) ∧
    ((rawSections wFetch1 wFiles1).map Prod.fst).Sublist
      (wFiles1.map ChangedFileData.filename) ∧
    ((astSections wFetch1 wParse1 wFiles1).map Prod.fst).Sublist
      (wFiles1.map ChangedFileData.filename) :=
  aggregateASTReport_preserves_input_order wFetch1 wParse1 wFiles1

/-- Witness for C4 at a concrete comment thread. -/
theorem formatPreviousComments_window_witness :
    formatPreviousComments wComments4
      = String.intercalate "\n\n" ((mostRecentWindow 30 wComments4).map renderComment) ∧
    (mostRecentWindow 30 wComments4).length = min wComments4.length 30 ∧
    mostRecentWindow 30 wComments4 <:+ wComments4 :=
  formatPreviousComments_window wComments4

/-- Witness for C5 at a concrete comment record. -/
theorem transcript_truncation_cap_iff_witness :
    (truncatedBody wComment5).length ≤ 500 ∧
    ((ellipsisMarker wComment5 = "...") ↔ ∃ b, wComment5.body = some b ∧ 500 < b.length) ∧
    (ellipsisMarker wComment5 = "..." ∨ ellipsisMarker wComment5 = "") ∧
    renderComment wComment5 = roleTag wComment5 ++ " " ++ commentUsername wComment5 ++ ": "
      ++ truncatedBody wComment5 ++ ellipsisMarker wComment5 :=
  transcript_truncation_cap_iff wComment5

/-- Witness for C8 at a concrete comment record with an absent author. -/
theorem transcript_role_label_iff_witness :
    (roleTag ⟨none, some "hi"⟩ = "[BOT RESPONSE]" ↔
        (⟨none, some "hi"⟩ : CommentRecord).user = some botLogin) ∧
    (roleTag ⟨none, some "hi"⟩ = "[USER]" ↔
        (⟨none, some "hi"⟩ : CommentRecord).user ≠ some botLogin) ∧
    ((⟨none, some "hi"⟩ : CommentRecord).user = none → roleTag ⟨none, some "hi"⟩ = "[USER]") ∧
    (roleTag ⟨none, some "hi"⟩).data <+: (renderComment ⟨none, some "hi"⟩).data :=
  transcript_role_label_iff ⟨none, some "hi"⟩

/-- Witness for the amended C6 at a concrete plain-text response. -/
theorem fetchFullFileContent_error_characterization_witness :
    (fetchFullFileContent "p" (.text "x") = .error (.notAFile "p") ↔
        isDirectoryShaped (.text "x")) ∧
    (fetchFullFileContent "p" (.text "x") = .error (.unreadableContent "p") ↔
        ¬ isPlainText (.text "x") ∧ ¬ isDirectoryShaped (.text "x") ∧
        ¬ carriesNonemptyEncodedBody (.text "x")) :=
  fetchFullFileContent_error_characterization "p" (.text "x")

/-- Witness for C10 at a concrete path. -/
theorem empty_content_file_unreadable_witness :
    fetchFullFileContent "q" (.obj ⟨"file", some ""⟩) = .error (.unreadableContent "q") ∧
    fetchFullFileContent "q" (.obj ⟨"file", some ""⟩) ≠ .ok "" :=
  empty_content_file_unreadable "q"
